import Mathlib

/-!
Shallow embedding of the GapAncillary raster pipeline
(src/createAvoidAll_allRegions_2016Dec12.py and src/ne_roadDensity.py).

A raster ("grid") over a fixed region frame is modelled as a function from
cells to `Option` values: `none` is the nodata sentinel.  Stage-2 rasters
(land cover, rounded density, all `tmp*` grids) are integer valued, so their
cells carry `Option ℤ`; the stage-1 raw line-density rasters are fractional
and carry `Option ℚ`.

ArcGIS Spatial Analyst map-algebra semantics is embedded as documented by
the toolkit: relational operators, `&`, `Con` and `Plus` propagate nodata
(a cell where any operand is nodata is nodata in the output); `IsNull`
is defined everywhere; `Con` with no else-branch yields nodata where the
condition is false; `RegionGroup` with excluded value 0 labels the
8-connected components of the 1-valued cells and leaves every other cell
nodata; `ZonalStatistics SUM` sums the value raster over each zone;
`EucDistance` is defined (up to the maximum distance) at cells within reach
of any non-nodata source cell, and nodata beyond.  `EucDistance` is embedded
by the *squared* distance in square metres (an integer for 30 m cells), so
that the development stays in decidable arithmetic; the pipeline only ever
consumes its null-pattern (`Con(IsNull(...))`), and for nonnegative radii
`d ≤ r ↔ d² ≤ r²`, so the null-pattern is unchanged by this encoding.
-/

namespace GapAncillary

/-- A cell of the shared regional frame: a row index and a column index. -/
abbrev Cell (h w : Nat) := Fin h × Fin w

/-- An integer raster over the frame; `none` is nodata. -/
abbrev Grid (h w : Nat) := Cell h w → Option ℤ

/-- A fractional raster (stage-1 raw line densities); `none` is nodata. -/
abbrev QGrid (h w : Nat) := Cell h w → Option ℚ

/-- A boolean mask over the frame (used for mask-level specifications). -/
abbrev Mask (h w : Nat) := Cell h w → Bool

/-- Constant raster. -/
def const (q : ℤ) : Grid h w := fun _ => some q

/-- Relational operator `raster > t`: 1 / 0 where defined, nodata propagates. -/
def rastGT (g : Grid h w) (t : ℤ) : Grid h w :=
  fun c => (g c).map (fun v => if t < v then 1 else 0)

/-- Relational operator `raster < t`: 1 / 0 where defined, nodata propagates. -/
def rastLT (g : Grid h w) (t : ℤ) : Grid h w :=
  fun c => (g c).map (fun v => if v < t then 1 else 0)

/-- Relational operator `raster >= t`: 1 / 0 where defined, nodata propagates. -/
def rastGE (g : Grid h w) (t : ℤ) : Grid h w :=
  fun c => (g c).map (fun v => if t ≤ v then 1 else 0)

/-- Boolean `&` of two rasters: nonzero counts as true; nodata propagates. -/
def rastAnd (a b : Grid h w) : Grid h w := fun c =>
  match a c, b c with
  | some x, some y => some (if x ≠ 0 ∧ y ≠ 0 then 1 else 0)
  | _, _ => none

/-- Operator `Con(cond, t, f)` with raster branches: where the condition is nonzero the
true branch, where zero the false branch, where nodata the output is nodata. -/
def conG (cond t f : Grid h w) : Grid h w := fun c =>
  (cond c).bind (fun v => if v ≠ 0 then t c else f c)

/-- Operator `Con(cond, t)` with no else-branch: nodata where the condition is false
or nodata. -/
def con1 (cond : Grid h w) (t : ℤ) : Grid h w := fun c =>
  (cond c).bind (fun v => if v ≠ 0 then some t else none)

/-- Operator `IsNull`: 1 at nodata cells, 0 at defined cells; defined everywhere. -/
def isNull (g : Grid h w) : Grid h w :=
  fun c => some (if (g c).isNone then 1 else 0)

/-- Operator `Plus` of two rasters: cellwise sum, nodata propagates. -/
def plus (a b : Grid h w) : Grid h w := fun c =>
  match a c, b c with
  | some x, some y => some (x + y)
  | _, _ => none

/-- The squared Euclidean distance between the centres of two cells,
in units of squared cell widths. -/
def sqCellDist (a b : Cell h w) : ℤ :=
  ((a.1 : ℤ) - (b.1 : ℤ)) ^ 2 + ((a.2 : ℤ) - (b.2 : ℤ)) ^ 2

/-- Operator `EucDistance(src, maxDist, cellSize)`, embedded by the squared distance in
square metres: at each cell the least squared distance to a non-nodata source
cell, nodata where that exceeds `maxDist ^ 2` or where there is no source. -/
def eucDistSq (src : Grid h w) (maxDist cellSize : ℤ) : Grid h w := fun c =>
  let seeds := Finset.univ.filter (fun s => (src s).isSome)
  if hs : seeds.Nonempty then
    let d2 := seeds.inf' hs (fun s => cellSize ^ 2 * sqCellDist c s)
    if d2 ≤ maxDist ^ 2 then some d2 else none
  else none

/-! ## Connected components (RegionGroup with 8-cell neighbourhood)

`RegionGroup(mask, "EIGHT", "WITHIN", "ADD_LINK", "0")` on a 0/1 raster
labels the 8-connected groups of 1-valued cells (value 0 is the excluded
value, and excluded or nodata cells are nodata in the output).  Label
identities are irrelevant downstream — the zonal sum only needs the zone of
each cell — so a zone is represented by its set of cells, computed as the
fixpoint of one-step 8-neighbour expansion inside the mask. -/

/-- Adjacency of the 8-cell neighbourhood: distinct cells whose row and column indices each
differ by at most one, i.e. Chebyshev distance exactly 1. -/
def adj8 (a b : Cell h w) : Prop :=
  max (Nat.dist a.1 b.1) (Nat.dist a.2 b.2) = 1

instance (a b : Cell h w) : Decidable (adj8 a b) := by
  unfold adj8; infer_instance

/-- One expansion step: add every masked cell 8-adjacent to the current set. -/
def nbhd (m : Mask h w) (S : Finset (Cell h w)) : Finset (Cell h w) :=
  S ∪ Finset.univ.filter (fun y => m y ∧ ∃ x ∈ S, adj8 x y)

/-- The 8-connected group (zone) of a masked cell: the stable expansion of
the singleton; background cells have an empty group. -/
def component (m : Mask h w) (c : Cell h w) : Finset (Cell h w) :=
  if m c then (nbhd m)^[h * w] {c} else ∅

/-- Encode a boolean mask as the 0/1 grid `Con(pred, 1, 0)` would produce. -/
def maskToGrid01 (m : Mask h w) : Grid h w :=
  fun c => some (if m c then 1 else 0)

/-- Encode a boolean mask as a 1/nodata grid (the shape of a `Con` with no
else-branch). -/
def maskToGrid1N (m : Mask h w) : Grid h w :=
  fun c => if m c then some 1 else none

/-- The 1-valued cells of a 0/1 raster (the cells RegionGroup groups once
value 0 is excluded). -/
def trueCells (g : Grid h w) : Mask h w := fun c => g c == some 1

/-- Operator chain `ZonalStatistics(RegionGroup(g), "VALUE", g, "SUM", "DATA")` on a 0/1
raster `g`: at each grouped cell, the sum of `g` over that cell's zone
(nodata value-cells ignored per `DATA`); nodata where the zone raster is
nodata (background and nodata cells). -/
def zonalSum (g : Grid h w) : Grid h w := fun c =>
  if trueCells g c then
    some (Finset.sum (component (trueCells g) c) (fun x => (g x).getD 0))
  else none

/-- The spec's `sizeFilter`: keep exactly the cells whose 8-connected group
of true cells has more than `minSize` cells. -/
def sizeFilter (m : Mask h w) (minSize : Nat) : Mask h w :=
  fun c => m c && decide (minSize < (component m c).card)

/-- The spec's `bufferWithin`: true at the cells within `maxRadius` (in
metres, for cells `cellSize` metres wide) of some true cell of the mask;
Euclidean metric, compared through squared distances. -/
def bufferWithin (m : Mask h w) (maxRadius cellSize : ℤ) : Mask h w :=
  fun c => decide (∃ s, m s ∧ cellSize ^ 2 * sqCellDist c s ≤ maxRadius ^ 2)

/-! ## Stage 2: the per-region avoid-mask pipeline
(createAvoidAll_allRegions_2016Dec12.py, lines 118–204), parameterised by
the land-cover raster `nlcd` and the regional road-density raster
`density`. -/

/-- Line 118: `Con((Raster(nlcd) > 21) & (Raster(nlcd) < 25), 1, 0)` —
the low-level urban mask, NLCD classes 22–24. -/
def tmp1_urb01 (nlcd : Grid h w) : Grid h w :=
  conG (rastAnd (rastGT nlcd 21) (rastLT nlcd 25)) (const 1) (const 0)

/-- Lines 121–125: RegionGroup on tmp1_urb01 (eight-cell neighbourhood,
excluded value 0) followed by the zonal sum of tmp1_urb01 over its own
groups. -/
def tmp1_urb03 (nlcd : Grid h w) : Grid h w := zonalSum (tmp1_urb01 nlcd)

/-- Line 127: `Con(Raster(tmp1_urb03) > 5, 1)` — groups of more than five
cells keep value 1; every other cell is nodata (no else-branch). -/
def tmp1_urb04 (nlcd : Grid h w) : Grid h w := con1 (rastGT (tmp1_urb03 nlcd) 5) 1

/-- Line 130: `EucDistance(tmp1_urb04, "120", "30")` (squared-distance
encoding). -/
def tmp1_urb05 (nlcd : Grid h w) : Grid h w := eucDistSq (tmp1_urb04 nlcd) 120 30

/-- Line 133: `Con(IsNull(tmp1_urb05), 0, 1)` — the 120 m urban buffer as a
0/1 raster. -/
def tmp1_urb06 (nlcd : Grid h w) : Grid h w :=
  conG (isNull (tmp1_urb05 nlcd)) (const 0) (const 1)

/-- Line 140: `Con((Raster(nlcd) > 22) & (Raster(nlcd) < 25), 1, 0)` —
the med/high urban mask, NLCD classes 23–24. -/
def tmp2_urb01 (nlcd : Grid h w) : Grid h w :=
  conG (rastAnd (rastGT nlcd 22) (rastLT nlcd 25)) (const 1) (const 0)

/-- Lines 143–147: RegionGroup and zonal sum for the med/high mask. -/
def tmp2_urb03 (nlcd : Grid h w) : Grid h w := zonalSum (tmp2_urb01 nlcd)

/-- Line 149: `Con(Raster(tmp2_urb03) > 5, 1)`. -/
def tmp2_urb04 (nlcd : Grid h w) : Grid h w := con1 (rastGT (tmp2_urb03 nlcd) 5) 1

/-- Line 152: `EucDistance(tmp2_urb04, "90", "30")` (squared-distance
encoding). -/
def tmp2_urb05 (nlcd : Grid h w) : Grid h w := eucDistSq (tmp2_urb04 nlcd) 90 30

/-- Line 155: `Con(IsNull(tmp2_urb05), 0, 1)` — the 90 m urban buffer as a
0/1 raster. -/
def tmp2_urb06 (nlcd : Grid h w) : Grid h w :=
  conG (isNull (tmp2_urb05 nlcd)) (const 0) (const 1)

/-- Line 162: `Con(Raster(density) >= 25, 1, 0)`. -/
def tmp1_rdd01 (density : Grid h w) : Grid h w :=
  conG (rastGE density 25) (const 1) (const 0)

/-- Line 165: `Con(Raster(density) >= 65, 1, 0)`. -/
def tmp2_rdd01 (density : Grid h w) : Grid h w :=
  conG (rastGE density 65) (const 1) (const 0)

/-- Line 168: `Con(Raster(density) >= 130, 1, 0)`. -/
def tmp3_rdd01 (density : Grid h w) : Grid h w :=
  conG (rastGE density 130) (const 1) (const 0)

/-- Line 174: `Plus(tmp1_urb06, tmp1_rdd01)`. -/
def tmp1_avd01 (nlcd density : Grid h w) : Grid h w :=
  plus (tmp1_urb06 nlcd) (tmp1_rdd01 density)

/-- Line 177: `Con(Raster(tmp1_avd01) > 0, 1, 0)` — the low criterion. -/
def tmp1_avd02 (nlcd density : Grid h w) : Grid h w :=
  conG (rastGT (tmp1_avd01 nlcd density) 0) (const 1) (const 0)

/-- Line 182: `Plus(tmp2_urb06, tmp2_rdd01)`. -/
def tmp2_avd01 (nlcd density : Grid h w) : Grid h w :=
  plus (tmp2_urb06 nlcd) (tmp2_rdd01 density)

/-- Line 186: `Con(Raster(tmp2_avd01) > 0, 1, 0)` — the medium criterion. -/
def tmp2_avd02 (nlcd density : Grid h w) : Grid h w :=
  conG (rastGT (tmp2_avd01 nlcd density) 0) (const 1) (const 0)

/-- Line 195: `Plus(tmp2_urb06, tmp3_rdd01)` — note the reuse of the 90 m
buffer raster tmp2_urb06, exactly as in the source. -/
def tmp3_avd01 (nlcd density : Grid h w) : Grid h w :=
  plus (tmp2_urb06 nlcd) (tmp3_rdd01 density)

/-- Line 199: `Con(Raster(tmp3_avd01) > 0, 1, 0)` — the high criterion. -/
def tmp3_avd02 (nlcd density : Grid h w) : Grid h w :=
  conG (rastGT (tmp3_avd01 nlcd density) 0) (const 1) (const 0)

/-- Line 203: `tmp1_avd02 + tmp2_avd02 + tmp3_avd02` — the final regional
avoid mask. -/
def avdMask (nlcd density : Grid h w) : Grid h w :=
  plus (plus (tmp1_avd02 nlcd density) (tmp2_avd02 nlcd density))
    (tmp3_avd02 nlcd density)

/-- The criterion raster built from the shared 90 m buffer and the density
threshold `t`: `Con(Plus(tmp2_urb06, Con(density >= t, 1, 0)) > 0, 1, 0)`. -/
def critOf (nlcd density : Grid h w) (t : ℤ) : Grid h w :=
  conG (rastGT (plus (tmp2_urb06 nlcd) (conG (rastGE density t) (const 1) (const 0))) 0)
    (const 1) (const 0)

/-! ## Stage 1: density rounding and mosaic (ne_roadDensity.py, 181–201) -/

/-- ArcGIS `Int`: truncation towards zero. -/
def arcTrunc (q : ℚ) : ℤ := if 0 ≤ q then ⌊q⌋ else ⌈q⌉

/-- Expression `Int(Raster(dens) + .5)` on a fractional raster: add one half, truncate;
nodata propagates. -/
def intHalfUp (g : QGrid h w) : Grid h w :=
  fun c => (g c).map (fun v => arcTrunc (v + 1/2))

/-- Line 184: `Con(IsNull(Int(Raster(dens) + .5)), 0, Int(Raster(dens) + .5))`
— round half up and fill nodata with zero. -/
def roundAndFillZero (g : QGrid h w) : Grid h w :=
  conG (isNull (intHalfUp g)) (const 0) (intHalfUp g)

/-- Cellwise maximum of two rasters, ignoring nodata (`CellStatistics`
with the default DATA handling): nodata only where both inputs are. -/
def gridMax (a b : Grid h w) : Grid h w := fun c =>
  match a c, b c with
  | some x, some y => some (max x y)
  | some x, none => some x
  | none, some y => some y
  | none, none => none

/-- Line 201: `CellStatistics(rasters, MAXIMUM)` over a list of rasters. -/
def mosaicMax (gs : List (Grid h w)) : Grid h w :=
  gs.foldr gridMax (fun _ => none)

/-- The stage-1 tail: round-and-fill each per-HUC density raster, then take
the cellwise maximum mosaic. -/
def regionalDensity (gs : List (QGrid h w)) : Grid h w :=
  mosaicMax (gs.map roundAndFillZero)

/-! ## The per-region driver (createAvoidAll lines 100–208)

`for region in regions: try: <pipeline> except: print region + " failed."` —
each region's pipeline runs inside its own try block; a failure is reported
with the region identifier and the loop moves on to the next region.  The
modelled failure source is a missing input raster (the pipeline body is pure
once its two input rasters are loaded); failures short-circuit the remaining
stages through `Except` bind. -/

/-- The inputs a region's pipeline loads: its land-cover raster and its
road-density raster, either of which may be absent. -/
structure RegionInput (h w : Nat) where
  name : String
  nlcd : Option (Grid h w)
  density : Option (Grid h w)

/-- Load an input raster, failing with the given message when it is absent. -/
def loadGrid (g : Option (Grid h w)) (msg : String) : Except String (Grid h w) :=
  match g with
  | some g => Except.ok g
  | none => Except.error msg

/-- One region's pipeline: load the land cover, load the density, compute the
avoid mask.  A failing stage aborts the remaining stages. -/
def regionPipeline (inp : RegionInput h w) : Except String (Grid h w) := do
  let nlcd ← loadGrid inp.nlcd "missing nlcd"
  let dens ← loadGrid inp.density "missing density"
  pure (avdMask nlcd dens)

/-- The region loop: every region is processed, a failed region yields no
output grid. -/
def processRegions (p : RegionInput h w → Except String (Grid h w))
    (rs : List (RegionInput h w)) : List (String × Option (Grid h w)) :=
  rs.map (fun r =>
    match p r with
    | Except.ok g => (r.name, some g)
    | Except.error _ => (r.name, none))

/-- The printed failure log: one `<region> failed.` line per failed region. -/
def runLog (p : RegionInput h w → Except String (Grid h w))
    (rs : List (RegionInput h w)) : List String :=
  rs.filterMap (fun r =>
    match p r with
    | Except.ok _ => none
    | Except.error _ => some (r.name ++ " failed."))

/-! ## Concrete inputs used to exercise the theorems -/

/-- An all-nodata 1-cell integer raster. -/
def noneGrid : Grid 1 1 := fun _ => none

/-- The single cell of a 1-by-1 frame. -/
def cell00 : Cell 1 1 := (0, 0)

/-- A 1-cell land-cover raster holding NLCD class 23. -/
def nlcdW : Grid 1 1 := const 23

/-- A 1-cell road-density raster holding density 30. -/
def densW : Grid 1 1 := const 30

/-- A 1-cell fractional density raster holding exactly 24.5. -/
def qHalf : QGrid 1 1 := fun _ => some (49 / 2)

/-- An all-nodata 1-cell fractional raster. -/
def qNone : QGrid 1 1 := fun _ => none

/-- A 1-by-3 mask whose only true cell is the left one. -/
def mBuf : Mask 1 3 := fun c => c.2 == (0 : Fin 3)

/-- A region whose two input rasters are both present. -/
def regGood : RegionInput 1 1 := RegionInput.mk "gp" (some (const 23)) (some (const 30))

/-- A region whose land-cover raster is missing. -/
def regBad : RegionInput 1 1 := RegionInput.mk "ne" none (some (const 30))

/-! ## Theory of the component fixpoint -/

/-- The step relation underlying a mask's 8-connected groups: one 8-adjacent
move between two true cells. -/
def stepRel (m : Mask h w) (a b : Cell h w) : Prop :=
  m a = true ∧ m b = true ∧ adj8 a b

theorem adj8_symm {a b : Cell h w} (hab : adj8 a b) : adj8 b a := by
  unfold adj8 at hab ⊢
  rw [Nat.dist_comm a.1 b.1, Nat.dist_comm a.2 b.2] at hab
  exact hab

theorem stepRel_symm {m : Mask h w} {a b : Cell h w} (hab : stepRel m a b) :
    stepRel m b a :=
  ⟨hab.2.1, hab.1, adj8_symm hab.2.2⟩

theorem subset_nbhd (m : Mask h w) (S : Finset (Cell h w)) : S ⊆ nbhd m S :=
  Finset.subset_union_left

theorem iterate_nbhd_le {m : Mask h w} {S : Finset (Cell h w)} {k l : Nat}
    (hkl : k ≤ l) : (nbhd m)^[k] S ⊆ (nbhd m)^[l] S := by
  induction l with
  | zero => simp_all
  | succ n ih =>
    rcases Nat.lt_or_ge k (n + 1) with hlt | hge
    · intro x hx
      rw [Function.iterate_succ_apply']
      exact subset_nbhd m _ (ih (Nat.lt_succ_iff.mp hlt) hx)
    · have : k = n + 1 := le_antisymm hkl hge
      subst this
      exact fun x hx => hx

theorem mask_of_mem_iterate {m : Mask h w} {c x : Cell h w} {k : Nat}
    (hc : m c = true) (hx : x ∈ (nbhd m)^[k] {c}) : m x = true := by
  induction k generalizing x with
  | zero => simp only [Function.iterate_zero_apply, Finset.mem_singleton] at hx; subst hx; exact hc
  | succ n ih =>
    rw [Function.iterate_succ_apply'] at hx
    rcases Finset.mem_union.mp hx with h1 | h2
    · exact ih h1
    · exact (Finset.mem_filter.mp h2).2.1

theorem rtg_of_mem_iterate {m : Mask h w} {c x : Cell h w} {k : Nat}
    (hc : m c = true) (hx : x ∈ (nbhd m)^[k] {c}) :
    Relation.ReflTransGen (stepRel m) c x := by
  induction k generalizing x with
  | zero =>
    simp only [Function.iterate_zero_apply, Finset.mem_singleton] at hx
    subst hx; exact Relation.ReflTransGen.refl
  | succ n ih =>
    rw [Function.iterate_succ_apply'] at hx
    rcases Finset.mem_union.mp hx with h1 | h2
    · exact ih h1
    · obtain ⟨-, hmx, z, hz, hadj⟩ := Finset.mem_filter.mp h2
      exact Relation.ReflTransGen.tail (ih hz)
        ⟨mask_of_mem_iterate hc hz, hmx, hadj⟩

theorem card_lt_of_iterate_ne {m : Mask h w} {S : Finset (Cell h w)} {k : Nat}
    (hne : ∀ j < k, (nbhd m)^[j] S ≠ (nbhd m)^[j + 1] S) :
    S.card + k ≤ ((nbhd m)^[k] S).card := by
  induction k with
  | zero => simp
  | succ n ih =>
    have h1 : (nbhd m)^[n] S ⊂ (nbhd m)^[n + 1] S :=
      lt_of_le_of_ne (iterate_nbhd_le (Nat.le_succ n))
        (hne n (Nat.lt_succ_self n))
    have h2 := Finset.card_lt_card h1
    have h3 := ih (fun j hj => hne j (Nat.lt_succ_of_lt hj))
    omega

theorem iterate_stable_of_eq {m : Mask h w} {S : Finset (Cell h w)} {k : Nat}
    (heq : (nbhd m)^[k] S = (nbhd m)^[k + 1] S) :
    ∀ j, k ≤ j → (nbhd m)^[j] S = (nbhd m)^[k] S := by
  intro j hj
  induction j with
  | zero => simp_all
  | succ n ih =>
    rcases Nat.lt_or_ge k (n + 1) with hlt | hge
    · have hkn : k ≤ n := Nat.lt_succ_iff.mp hlt
      calc (nbhd m)^[n + 1] S = nbhd m ((nbhd m)^[n] S) :=
              Function.iterate_succ_apply' _ _ _
        _ = nbhd m ((nbhd m)^[k] S) := by rw [ih hkn]
        _ = (nbhd m)^[k + 1] S := (Function.iterate_succ_apply' _ _ _).symm
        _ = (nbhd m)^[k] S := heq.symm
    · have : k = n + 1 := le_antisymm hj hge
      rw [this]

theorem nbhd_iterate_fixed {m : Mask h w} {S : Finset (Cell h w)}
    (hS : S.Nonempty) :
    nbhd m ((nbhd m)^[Fintype.card (Cell h w)] S) =
      (nbhd m)^[Fintype.card (Cell h w)] S := by
  set N := Fintype.card (Cell h w) with hN
  have hstep : ∃ k < N, (nbhd m)^[k] S = (nbhd m)^[k + 1] S := by
    by_contra hcon
    push_neg at hcon
    have h1 := card_lt_of_iterate_ne (m := m) (S := S) (k := N) hcon
    have h2 : ((nbhd m)^[N] S).card ≤ N := by
      rw [hN]; exact Finset.card_le_univ _
    have h3 : 0 < S.card := Finset.card_pos.mpr hS
    omega
  obtain ⟨k, hkN, hk⟩ := hstep
  have hNk : (nbhd m)^[N] S = (nbhd m)^[k] S :=
    iterate_stable_of_eq hk N (Nat.le_of_lt hkN)
  have hNk1 : (nbhd m)^[N + 1] S = (nbhd m)^[k] S :=
    iterate_stable_of_eq hk (N + 1) (by omega)
  calc nbhd m ((nbhd m)^[N] S) = (nbhd m)^[N + 1] S :=
          (Function.iterate_succ_apply' _ _ _).symm
    _ = (nbhd m)^[k] S := hNk1
    _ = (nbhd m)^[N] S := hNk.symm

theorem card_cell (h w : Nat) : Fintype.card (Cell h w) = h * w := by
  simp [Cell]

theorem mem_component_of_rtg {m : Mask h w} {c x : Cell h w} (hc : m c = true)
    (hx : Relation.ReflTransGen (stepRel m) c x) : x ∈ component m c := by
  unfold component
  rw [if_pos hc]
  have hfix := nbhd_iterate_fixed (m := m) (S := ({c} : Finset (Cell h w)))
    (Finset.singleton_nonempty c)
  rw [card_cell] at hfix
  induction hx with
  | refl =>
    exact iterate_nbhd_le (Nat.zero_le _) (Finset.mem_singleton_self c)
  | tail hab hstep ih =>
    rw [← hfix]
    refine Finset.mem_union_right _ (Finset.mem_filter.mpr ?_)
    exact ⟨Finset.mem_univ _, hstep.2.1, _, ih, hstep.2.2⟩

/-- The defining property of `component`: its members are exactly the cells
reachable from `c` by 8-adjacent moves through true cells (empty unless `c`
itself is true). -/
theorem mem_component_iff {m : Mask h w} {c x : Cell h w} :
    x ∈ component m c ↔ m c = true ∧ Relation.ReflTransGen (stepRel m) c x := by
  constructor
  · intro hx
    unfold component at hx
    by_cases hc : m c = true
    · rw [if_pos hc] at hx
      exact ⟨hc, rtg_of_mem_iterate hc hx⟩
    · rw [if_neg hc] at hx
      exact absurd hx (Finset.not_mem_empty x)
  · rintro ⟨hc, hx⟩
    exact mem_component_of_rtg hc hx

theorem mem_component_self {m : Mask h w} {c : Cell h w} (hc : m c = true) :
    c ∈ component m c :=
  mem_component_iff.mpr ⟨hc, Relation.ReflTransGen.refl⟩

theorem mask_of_mem_component {m : Mask h w} {c x : Cell h w}
    (hx : x ∈ component m c) : m x = true := by
  obtain ⟨hc, hr⟩ := mem_component_iff.mp hx
  rcases Relation.ReflTransGen.cases_tail hr with heq | ⟨z, -, hstep⟩
  · subst heq; exact hc
  · exact hstep.2.1

theorem rtg_symm {m : Mask h w} {a b : Cell h w}
    (hab : Relation.ReflTransGen (stepRel m) a b) :
    Relation.ReflTransGen (stepRel m) b a := by
  induction hab with
  | refl => exact Relation.ReflTransGen.refl
  | tail hxy hstep ih =>
    exact Relation.ReflTransGen.trans
      (Relation.ReflTransGen.single (stepRel_symm hstep)) ih

/-- Two cells of one group have the same group: `component` induces the
equivalence classes of the connectivity relation. -/
theorem component_eq_of_mem {m : Mask h w} {c x : Cell h w}
    (hx : x ∈ component m c) : component m x = component m c := by
  obtain ⟨hc, hcx⟩ := mem_component_iff.mp hx
  have hmx : m x = true := mask_of_mem_component hx
  ext y
  rw [mem_component_iff, mem_component_iff]
  constructor
  · rintro ⟨-, hxy⟩
    exact ⟨hc, Relation.ReflTransGen.trans hcx hxy⟩
  · rintro ⟨-, hcy⟩
    exact ⟨hmx, Relation.ReflTransGen.trans (rtg_symm hcx) hcy⟩

/-- A sub-mask that is true on all of a group (and at its root) has the same
group there. -/
theorem component_eq_of_closed {m m' : Mask h w} {c : Cell h w}
    (hsub : ∀ a, m' a = true → m a = true)
    (hcl : ∀ y, y ∈ component m c → m' y = true) (hc : m' c = true) :
    component m' c = component m c := by
  have hmc : m c = true := hsub c hc
  ext y
  rw [mem_component_iff, mem_component_iff]
  constructor
  · rintro ⟨-, hr⟩
    refine ⟨hmc, Relation.ReflTransGen.mono ?_ hr⟩
    exact fun a b hab => ⟨hsub a hab.1, hsub b hab.2.1, hab.2.2⟩
  · rintro ⟨-, hr⟩
    refine ⟨hc, ?_⟩
    have key : ∀ z, Relation.ReflTransGen (stepRel m) c z →
        Relation.ReflTransGen (stepRel m') c z := by
      intro z hz
      induction hz with
      | refl => exact Relation.ReflTransGen.refl
      | tail hab hstep ih =>
        rename_i a b
        have hb : b ∈ component m c :=
          mem_component_of_rtg hmc (Relation.ReflTransGen.tail hab hstep)
        have ha : a ∈ component m c := mem_component_of_rtg hmc hab
        exact Relation.ReflTransGen.tail ih ⟨hcl a ha, hcl b hb, hstep.2.2⟩
    exact key y hr

/-! ## Zonal sum versus group size -/

theorem trueCells_maskToGrid01 (m : Mask h w) : trueCells (maskToGrid01 m) = m := by
  funext c
  unfold trueCells maskToGrid01
  cases hm : m c <;> simp [hm]

theorem eq_some_one_of_trueCells {g : Grid h w} {x : Cell h w}
    (hx : trueCells g x = true) : g x = some 1 := by
  unfold trueCells at hx
  exact beq_iff_eq.mp hx

/-- On a grouped cell, the zonal sum of the 0/1 raster over its own
region-group zone is exactly the zone's cell count. -/
theorem zonalSum_eq_card {g : Grid h w} {c : Cell h w}
    (hc : trueCells g c = true) :
    zonalSum g c = some ((component (trueCells g) c).card : ℤ) := by
  unfold zonalSum
  rw [if_pos hc]
  congr 1
  have hones : ∀ x ∈ component (trueCells g) c, (g x).getD 0 = (1 : ℤ) := by
    intro x hx
    rw [eq_some_one_of_trueCells (mask_of_mem_component hx)]
    rfl
  rw [Finset.sum_congr rfl hones, Finset.sum_const, nsmul_eq_mul, mul_one]

/-- The source's three-step construction — RegionGroup, zonal sum, then
`Con(· > 5, 1)` — produces 1 exactly on the cells the direct group-size
filter keeps, and nodata everywhere else. -/
theorem zonalFilter_eq_sizeFilter (g : Grid h w) :
    con1 (rastGT (zonalSum g) 5) 1 = maskToGrid1N (sizeFilter (trueCells g) 5) := by
  funext c
  by_cases hc : trueCells g c = true
  · rw [con1, rastGT, zonalSum_eq_card hc]
    by_cases hcard : 5 < (component (trueCells g) c).card
    · have h5 : (5 : ℤ) < ((component (trueCells g) c).card : ℤ) := by
        exact_mod_cast hcard
      simp [maskToGrid1N, sizeFilter, hc, h5, hcard]
    · have h5 : ¬ (5 : ℤ) < ((component (trueCells g) c).card : ℤ) := by
        exact_mod_cast hcard
      simp [maskToGrid1N, sizeFilter, hc, h5, hcard]
  · have hc' : trueCells g c = false := by
      cases htc : trueCells g c
      · rfl
      · exact absurd htc hc
    rw [con1, rastGT, zonalSum]
    rw [if_neg (by rw [hc']; exact Bool.false_ne_true)]
    simp [maskToGrid1N, sizeFilter, hc']

/-! ## Size-filter properties -/

theorem sizeFilter_true_iff {m : Mask h w} {n : Nat} {c : Cell h w} :
    sizeFilter m n c = true ↔ m c = true ∧ n < (component m c).card := by
  simp [sizeFilter]

theorem sizeFilter_le {m : Mask h w} {n : Nat} {c : Cell h w}
    (hc : sizeFilter m n c = true) : m c = true :=
  (sizeFilter_true_iff.mp hc).1

/-- Filtering keeps whole groups: the group of a kept cell is unchanged by
the filter. -/
theorem component_sizeFilter_eq {m : Mask h w} {c : Cell h w}
    (hc : sizeFilter m 5 c = true) :
    component (sizeFilter m 5) c = component m c := by
  obtain ⟨hmc, hcard⟩ := sizeFilter_true_iff.mp hc
  refine component_eq_of_closed (fun a ha => sizeFilter_le ha) ?_ hc
  intro y hy
  refine sizeFilter_true_iff.mpr ⟨mask_of_mem_component hy, ?_⟩
  rw [component_eq_of_mem hy]
  exact hcard

theorem sizeFilter_idem (m : Mask h w) :
    sizeFilter (sizeFilter m 5) 5 = sizeFilter m 5 := by
  funext c
  cases hm : sizeFilter m 5 c
  · show (sizeFilter m 5 c && decide (5 < (component (sizeFilter m 5) c).card)) = false
    rw [hm, Bool.false_and]
  · obtain ⟨hmc, hcard⟩ := sizeFilter_true_iff.mp hm
    refine sizeFilter_true_iff.mpr ⟨hm, ?_⟩
    rw [component_sizeFilter_eq hm]
    exact hcard

/-! ## Distance-buffer properties -/

/-- A cell of the capped distance raster is defined exactly when some
non-nodata source cell lies within the maximum distance. -/
theorem eucDistSq_isSome_iff {src : Grid h w} {md cs : ℤ} {c : Cell h w} :
    (eucDistSq src md cs c).isSome = true ↔
      ∃ s, (src s).isSome = true ∧ cs ^ 2 * sqCellDist c s ≤ md ^ 2 := by
  unfold eucDistSq
  by_cases hs : (Finset.univ.filter (fun s => (src s).isSome)).Nonempty
  · rw [dif_pos hs]
    dsimp only
    split_ifs with hle
    · constructor
      · intro _
        obtain ⟨s, hmem, hfs⟩ := (Finset.inf'_le_iff hs).mp hle
        exact ⟨s, (Finset.mem_filter.mp hmem).2, hfs⟩
      · intro _; rfl
    · constructor
      · intro hcon; simp at hcon
      · rintro ⟨s, hsome, hdist⟩
        exact absurd ((Finset.inf'_le_iff hs).mpr
          ⟨s, Finset.mem_filter.mpr ⟨Finset.mem_univ s, hsome⟩, hdist⟩) hle
  · rw [dif_neg hs]
    constructor
    · intro hcon; simp at hcon
    · rintro ⟨s, hsome, -⟩
      exact absurd ⟨s, Finset.mem_filter.mpr ⟨Finset.mem_univ s, hsome⟩⟩ hs

theorem maskToGrid1N_isSome {m : Mask h w} {s : Cell h w} :
    ((maskToGrid1N m s).isSome = true) ↔ m s = true := by
  unfold maskToGrid1N
  cases hm : m s <;> simp [hm]

/-- Lemma: `bufferWithin` is the null-pattern of the capped distance raster whose
sources are the true cells of the mask. -/
theorem bufferWithin_eq_eucDist {m : Mask h w} {md cs : ℤ} {c : Cell h w} :
    bufferWithin m md cs c = (eucDistSq (maskToGrid1N m) md cs c).isSome := by
  rcases hb : (eucDistSq (maskToGrid1N m) md cs c).isSome with _ | _
  · rw [Bool.eq_false_iff]
    intro htrue
    obtain ⟨s, hm, hd⟩ := of_decide_eq_true htrue
    rw [Bool.eq_false_iff] at hb
    exact hb (eucDistSq_isSome_iff.mpr ⟨s, maskToGrid1N_isSome.mpr hm, hd⟩)
  · obtain ⟨s, hsome, hd⟩ := eucDistSq_isSome_iff.mp hb
    exact decide_eq_true ⟨s, maskToGrid1N_isSome.mp hsome, hd⟩

/-! ## Characterising the urban stages of the pipeline -/

theorem tmp1_urb04_eq (nlcd : Grid h w) :
    tmp1_urb04 nlcd = maskToGrid1N (sizeFilter (trueCells (tmp1_urb01 nlcd)) 5) :=
  zonalFilter_eq_sizeFilter (tmp1_urb01 nlcd)

theorem tmp2_urb04_eq (nlcd : Grid h w) :
    tmp2_urb04 nlcd = maskToGrid1N (sizeFilter (trueCells (tmp2_urb01 nlcd)) 5) :=
  zonalFilter_eq_sizeFilter (tmp2_urb01 nlcd)

theorem conG_isNull_eq {g : Grid h w} {c : Cell h w} :
    conG (isNull g) (const 0) (const 1) c = some (if (g c).isSome then 1 else 0) := by
  unfold conG isNull const
  cases g c <;> simp

theorem tmp1_urb06_eq (nlcd : Grid h w) (c : Cell h w) :
    tmp1_urb06 nlcd c =
      some (if bufferWithin (sizeFilter (trueCells (tmp1_urb01 nlcd)) 5) 120 30 c
        then 1 else 0) := by
  show conG (isNull (tmp1_urb05 nlcd)) (const 0) (const 1) c = _
  rw [conG_isNull_eq]
  show some (if (eucDistSq (tmp1_urb04 nlcd) 120 30 c).isSome then 1 else 0) = _
  rw [tmp1_urb04_eq, ← bufferWithin_eq_eucDist]

theorem tmp2_urb06_eq (nlcd : Grid h w) (c : Cell h w) :
    tmp2_urb06 nlcd c =
      some (if bufferWithin (sizeFilter (trueCells (tmp2_urb01 nlcd)) 5) 90 30 c
        then 1 else 0) := by
  show conG (isNull (tmp2_urb05 nlcd)) (const 0) (const 1) c = _
  rw [conG_isNull_eq]
  show some (if (eucDistSq (tmp2_urb04 nlcd) 90 30 c).isSome then 1 else 0) = _
  rw [tmp2_urb04_eq, ← bufferWithin_eq_eucDist]

/-! ## Claim theorems -/

/-- C2: the high-density criterion is computed from the same 90 m buffer
raster (tmp2_urb06, the buffered 23/24 urban mask) as the medium criterion:
tmp3_avd01 sums tmp2_urb06 with the 130-threshold density mask, and the
medium and high criteria are the one shared-buffer construction `critOf`
instantiated at thresholds 65 and 130 respectively. -/
theorem crit_shared_buffer (nlcd density : Grid h w) :
    tmp3_avd01 nlcd density = plus (tmp2_urb06 nlcd) (tmp3_rdd01 density) ∧
    tmp3_avd02 nlcd density = critOf nlcd density 130 ∧
    tmp2_avd02 nlcd density = critOf nlcd density 65 :=
  ⟨rfl, rfl, rfl⟩

/-- C3: `sizeFilter(mask, 5)` marks true exactly the cells of 8-connected
groups of true cells with strictly more than 5 cells (where a cell's group
is the set of cells reachable from it through true cells by 8-adjacent
steps), and a second application leaves the output unchanged. -/
theorem sizeFilter_strict_gt_and_idem (m : Mask h w) :
    (∀ c, sizeFilter m 5 c = true ↔ m c = true ∧ 5 < (component m c).card) ∧
    (∀ c x, x ∈ component m c ↔
      m c = true ∧ Relation.ReflTransGen (stepRel m) c x) ∧
    sizeFilter (sizeFilter m 5) 5 = sizeFilter m 5 :=
  ⟨fun _ => sizeFilter_true_iff, fun _ _ => mem_component_iff, sizeFilter_idem m⟩

/-- C8: the source's "zonal statistics sum then threshold" construction
(region-group the 0/1 mask, sum the mask over its own zones, keep cells
whose zone sum exceeds 5) marks true exactly the cells the direct group-size
filter keeps, for every boolean mask. -/
theorem zonal_sum_threshold_equiv (m : Mask h w) :
    (∀ c, con1 (rastGT (zonalSum (maskToGrid01 m)) 5) 1 c = some 1 ↔
      sizeFilter m 5 c = true) ∧
    (∀ c, con1 (rastGT (zonalSum (maskToGrid01 m)) 5) 1 c = some 1 ∨
      con1 (rastGT (zonalSum (maskToGrid01 m)) 5) 1 c = none) := by
  have key := zonalFilter_eq_sizeFilter (maskToGrid01 m)
  rw [trueCells_maskToGrid01] at key
  constructor
  · intro c
    rw [key]
    unfold maskToGrid1N
    cases hs : sizeFilter m 5 c <;> simp [hs]
  · intro c
    rw [key]
    unfold maskToGrid1N
    cases hs : sizeFilter m 5 c
    · right; rfl
    · left; rfl

/-- C10: the group-size filter raster tmp1_urb04 equals the 1/nodata encoding
of the kept mask — every rejected or background cell is nodata, never 0 —
and the downstream buffering stage depends only on that null pattern: the
buffer raster tmp1_urb06 is exactly the 0/1 encoding of `bufferWithin` of
the kept mask, because the distance stage treats nodata cells as non-seeds;
the medium pipeline's tmp2_urb04 has the same shape. -/
theorem sizeFilter_output_nodata (nlcd : Grid h w) :
    tmp1_urb04 nlcd = maskToGrid1N (sizeFilter (trueCells (tmp1_urb01 nlcd)) 5) ∧
    (∀ c, tmp1_urb04 nlcd c = some 1 ∨ tmp1_urb04 nlcd c = none) ∧
    (∀ c, tmp1_urb04 nlcd c = none ↔
      sizeFilter (trueCells (tmp1_urb01 nlcd)) 5 c = false) ∧
    tmp2_urb04 nlcd = maskToGrid1N (sizeFilter (trueCells (tmp2_urb01 nlcd)) 5) ∧
    (∀ c, tmp1_urb06 nlcd c =
      some (if bufferWithin (sizeFilter (trueCells (tmp1_urb01 nlcd)) 5) 120 30 c
        then 1 else 0)) := by
  refine ⟨tmp1_urb04_eq nlcd, ?_, ?_, tmp2_urb04_eq nlcd, tmp1_urb06_eq nlcd⟩
  · intro c
    rw [tmp1_urb04_eq nlcd]
    unfold maskToGrid1N
    cases hs : sizeFilter (trueCells (tmp1_urb01 nlcd)) 5 c
    · right; rfl
    · left; rfl
  · intro c
    rw [tmp1_urb04_eq nlcd]
    unfold maskToGrid1N
    cases hs : sizeFilter (trueCells (tmp1_urb01 nlcd)) 5 c
    · simp [hs]
    · simp [hs]

theorem mosaicMax_single (g0 : Grid h w) : mosaicMax [g0] = g0 := by
  funext c
  show gridMax g0 (fun _ => none) c = g0 c
  unfold gridMax
  rcases g0 c with _ | x <;> rfl

/-- C6: the cellwise-maximum mosaic is associative and commutative as a grid
operation, and the stage-1 tail applied to a single sub-unit density grid is
exactly round-and-fill-zero of that grid. -/
theorem mosaicMax_assoc_comm (h w : Nat) :
    (∀ a b g3 : Grid h w, gridMax (gridMax a b) g3 = gridMax a (gridMax b g3)) ∧
    (∀ a b : Grid h w, gridMax a b = gridMax b a) ∧
    (∀ g0 : Grid h w, mosaicMax [g0] = g0) ∧
    (∀ g : QGrid h w, regionalDensity [g] = roundAndFillZero g) := by
  refine ⟨?_, ?_, mosaicMax_single, ?_⟩
  · intro a b g3
    funext c
    unfold gridMax
    rcases a c with _ | x <;> rcases b c with _ | y <;> rcases g3 c with _ | z <;>
      simp [max_assoc]
  · intro a b
    funext c
    unfold gridMax
    rcases a c with _ | x <;> rcases b c with _ | y <;> simp [max_comm]
  · intro g
    show mosaicMax [roundAndFillZero g] = roundAndFillZero g
    exact mosaicMax_single (roundAndFillZero g)

/-- C7: the distance buffer is monotonic in its radius — every cell within
the smaller nonnegative radius of a seed is within the larger radius. -/
theorem bufferWithin_mono_radius (m : Mask h w) (r1 r2 cs : ℤ) (c : Cell h w)
    (h0 : 0 ≤ r1) (h12 : r1 ≤ r2) (hc : bufferWithin m r1 cs c = true) :
    bufferWithin m r2 cs c = true := by
  obtain ⟨s, hm, hd⟩ := of_decide_eq_true hc
  exact decide_eq_true ⟨s, hm, hd.trans (pow_le_pow_left₀ h0 h12 2)⟩

theorem bufferWithin_mono_radius_witness :
    (0 : ℤ) ≤ 60 ∧ (60 : ℤ) ≤ 90 ∧
    bufferWithin mBuf 60 30 ((0 : Fin 1), (2 : Fin 3)) = true ∧
    bufferWithin mBuf 90 30 ((0 : Fin 1), (2 : Fin 3)) = true :=
  ⟨by decide, by decide, by decide,
    bufferWithin_mono_radius mBuf 60 90 30 ((0 : Fin 1), (2 : Fin 3))
      (by decide) (by decide) (by decide)⟩

/-- C4 counterexample: at a nodata input cell the source's density threshold
`Con(Raster(density) >= 25, 1, 0)` yields nodata, not 0, refuting the
claim that every nodata input cell is 0 in the threshold output. -/
theorem threshold_nodata_cex :
    noneGrid cell00 = none ∧
    tmp1_rdd01 noneGrid cell00 ≠ some 0 ∧
    tmp1_rdd01 noneGrid cell00 = none := by
  exact ⟨rfl, by decide, rfl⟩

/-- C4 (amended): the thresholding stages produce 1 where the predicate
holds and 0 where it fails on defined cells, and propagate nodata — a nodata
input cell is nodata, not 0, in the threshold output. -/
theorem threshold_nodata_propagates (g : Grid h w) (c : Cell h w) :
    (∀ v, g c = some v → tmp1_rdd01 g c = some (if 25 ≤ v then 1 else 0)) ∧
    (g c = none → tmp1_rdd01 g c = none) ∧
    (∀ v, g c = some v → tmp1_urb01 g c = some (if 21 < v ∧ v < 25 then 1 else 0)) ∧
    (g c = none → tmp1_urb01 g c = none) := by
  refine ⟨?_, ?_, ?_, ?_⟩
  · intro v hv
    by_cases h25 : 25 ≤ v <;>
      simp [tmp1_rdd01, conG, rastGE, const, hv, h25]
  · intro hn
    simp [tmp1_rdd01, conG, rastGE, hn]
  · intro v hv
    by_cases h21 : 21 < v <;> by_cases h25 : v < 25 <;>
      simp [tmp1_urb01, conG, rastAnd, rastGT, rastLT, const, hv, h21, h25]
  · intro hn
    simp [tmp1_urb01, conG, rastAnd, rastGT, rastLT, hn]

theorem threshold_nodata_witness :
    (const 30 : Grid 1 1) cell00 = some 30 ∧
    tmp1_rdd01 (const 30 : Grid 1 1) cell00 = some 1 ∧
    nlcdW cell00 = some 23 ∧
    tmp1_urb01 nlcdW cell00 = some 1 := by
  refine ⟨rfl, ?_, rfl, ?_⟩
  · have h := (threshold_nodata_propagates (const 30 : Grid 1 1) cell00).1 30 rfl
    rw [h]
    norm_num
  · have h := (threshold_nodata_propagates nlcdW cell00).2.2.1 23 rfl
    rw [h]
    norm_num

/-- C5: the stage-1 rounding stage maps a nodata cell to 0 and every defined
nonnegative density value to its round-half-up integer. -/
theorem roundAndFillZero_spec (g : QGrid h w) (c : Cell h w) :
    (g c = none → roundAndFillZero g c = some 0) ∧
    (∀ v, g c = some v → 0 ≤ v → roundAndFillZero g c = some ⌊v + 1/2⌋) := by
  constructor
  · intro hn
    simp [roundAndFillZero, conG, isNull, intHalfUp, const, hn]
  · intro v hv h0
    have harc : arcTrunc (v + 1/2) = ⌊v + 1/2⌋ := by
      unfold arcTrunc
      rw [if_pos (by linarith)]
    have hstep : roundAndFillZero g c = some (arcTrunc (v + 1/2)) := by
      unfold roundAndFillZero conG isNull intHalfUp const
      rw [hv]
      rfl
    rw [hstep, harc]

theorem roundAndFillZero_witness :
    roundAndFillZero qHalf cell00 = some 25 ∧
    roundAndFillZero qNone cell00 = some 0 := by
  constructor
  · have h := (roundAndFillZero_spec qHalf cell00).2 (49 / 2) rfl (by norm_num)
    rw [h]
    norm_num
  · exact (roundAndFillZero_spec qNone cell00).1 rfl

theorem conG10_values {cond : Grid h w} {c : Cell h w} {v : ℤ}
    (hv : conG cond (const 1) (const 0) c = some v) : v = 0 ∨ v = 1 := by
  unfold conG const at hv
  rcases hc : cond c with _ | x <;> rw [hc] at hv
  · simp at hv
  · rw [Option.some_bind] at hv
    split_ifs at hv <;> simp at hv <;> omega

theorem count_eq {g : Grid h w} {c : Cell h w} {a : ℤ} (hg : g c = some a)
    (hA : a = 0 ∨ a = 1) :
    ((if g c = some 1 then 1 else 0 : ℕ) : ℤ) = a := by
  rcases hA with rfl | rfl
  · rw [if_neg (by simp [hg])]
    rfl
  · rw [if_pos hg]
    rfl

/-- C1: the final avoid mask is the cellwise sum of the three 0/1 criterion
rasters; every defined cell holds an integer in 0..3, and a score of at
least `k` means at least `k` of the three criteria hold at that cell. -/
theorem avdMask_sum_of_criteria (nlcd density : Grid h w) (c : Cell h w) :
    avdMask nlcd density c =
      plus (plus (tmp1_avd02 nlcd density) (tmp2_avd02 nlcd density))
        (tmp3_avd02 nlcd density) c ∧
    ∀ v, avdMask nlcd density c = some v →
      (v = 0 ∨ v = 1 ∨ v = 2 ∨ v = 3) ∧
      ∀ k : ℕ, (k : ℤ) ≤ v →
        k ≤ ((if tmp1_avd02 nlcd density c = some 1 then 1 else 0) +
             (if tmp2_avd02 nlcd density c = some 1 then 1 else 0) +
             (if tmp3_avd02 nlcd density c = some 1 then 1 else 0)) := by
  refine ⟨rfl, ?_⟩
  intro v hv
  have hv' : plus (plus (tmp1_avd02 nlcd density) (tmp2_avd02 nlcd density))
      (tmp3_avd02 nlcd density) c = some v := hv
  unfold plus at hv'
  rcases ha : tmp1_avd02 nlcd density c with _ | a <;>
    rcases hb : tmp2_avd02 nlcd density c with _ | b <;>
      rcases hz : tmp3_avd02 nlcd density c with _ | z <;>
        rw [ha, hb, hz] at hv' <;> simp at hv'
  have hA : a = 0 ∨ a = 1 :=
    conG10_values (show conG (rastGT (tmp1_avd01 nlcd density) 0)
      (const 1) (const 0) c = some a from ha)
  have hB : b = 0 ∨ b = 1 :=
    conG10_values (show conG (rastGT (tmp2_avd01 nlcd density) 0)
      (const 1) (const 0) c = some b from hb)
  have hZ : z = 0 ∨ z = 1 :=
    conG10_values (show conG (rastGT (tmp3_avd01 nlcd density) 0)
      (const 1) (const 0) c = some z from hz)
  rcases hA with rfl | rfl <;> rcases hB with rfl | rfl <;> rcases hZ with rfl | rfl <;>
    refine ⟨by omega, ?_⟩ <;> intro k hk <;> simp <;> omega

/-- C9: the driver isolates region failures — a region whose pipeline errs
contributes a no-output entry and a log line naming it, while the regions
before and after it are processed exactly as they would be alone; within a
region, a missing first input aborts the remaining stages regardless of the
later inputs. -/
theorem region_failures_isolated (p : RegionInput h w → Except String (Grid h w))
    (rs1 rs2 : List (RegionInput h w)) (r : RegionInput h w) (e : String)
    (he : p r = Except.error e) :
    processRegions p (rs1 ++ r :: rs2) =
      processRegions p rs1 ++ (r.name, none) :: processRegions p rs2 ∧
    runLog p (rs1 ++ r :: rs2) =
      runLog p rs1 ++ (r.name ++ " failed.") :: runLog p rs2 ∧
    (∀ inp : RegionInput h w, inp.nlcd = none →
      ∀ d : Option (Grid h w), regionPipeline (RegionInput.mk inp.name none d) =
        Except.error "missing nlcd") := by
  refine ⟨?_, ?_, ?_⟩
  · unfold processRegions
    rw [List.map_append, List.map_cons, he]
  · unfold runLog
    rw [List.filterMap_append, List.filterMap_cons, he]
  · intro inp _ d
    rfl

theorem region_failures_isolated_witness :
    regionPipeline regBad = Except.error "missing nlcd" ∧
    processRegions regionPipeline [regGood, regBad, regGood] =
      processRegions regionPipeline [regGood] ++
        (regBad.name, none) :: processRegions regionPipeline [regGood] ∧
    runLog regionPipeline [regGood, regBad, regGood] =
      runLog regionPipeline [regGood] ++
        (regBad.name ++ " failed.") :: runLog regionPipeline [regGood] := by
  have hk := region_failures_isolated regionPipeline [regGood] [regGood] regBad
    "missing nlcd" rfl
  exact ⟨rfl, hk.1, hk.2.1⟩

theorem avdMask_sum_of_criteria_witness :
    avdMask nlcdW densW cell00 = some 1 ∧
    1 ≤ ((if tmp1_avd02 nlcdW densW cell00 = some 1 then 1 else 0) +
         (if tmp2_avd02 nlcdW densW cell00 = some 1 then 1 else 0) +
         (if tmp3_avd02 nlcdW densW cell00 = some 1 then 1 else 0)) := by
  have h := (avdMask_sum_of_criteria nlcdW densW cell00).2 1 (by decide)
  exact ⟨by decide, h.2 1 (by decide)⟩

end GapAncillary
